import Mathlib

/-!
Verification of the Dymaxion (Fuller) projection conversion routines
(`dymax/convert.py`): spherical/cartesian conversions, icosahedron
face and LCD sub-triangle classification, the unfolding transform with
per-face placement, the mesh helpers, and the memoization wrapper.

Real numbers stand in for Python floats.  The geometry table (the
`constants` module) is not among the sources, so it is modelled as an
abstract structure; every theorem is stated over an arbitrary table.
-/

namespace Dymax

noncomputable section

open Real

/-- A length-3 vector of reals, modelling the numpy 3-arrays used for
cartesian points throughout `convert.py`. -/
@[ext]
structure Vec3 where
  x : ℝ
  y : ℝ
  z : ℝ

/-- Componentwise vector addition (numpy `+`). -/
def vadd (a b : Vec3) : Vec3 := ⟨a.x + b.x, a.y + b.y, a.z + b.z⟩

/-- Componentwise vector subtraction (numpy `-`). -/
def vsub (a b : Vec3) : Vec3 := ⟨a.x - b.x, a.y - b.y, a.z - b.z⟩

/-- Scalar multiple of a vector (numpy `*`). -/
def smul (c : ℝ) (a : Vec3) : Vec3 := ⟨c * a.x, c * a.y, c * a.z⟩

/-- `np.dot` of two 3-vectors. -/
def dot (a b : Vec3) : ℝ := a.x * b.x + a.y * b.y + a.z * b.z

/-- `magnitude = lambda vector: np.sqrt(np.dot(vector,vector))`. -/
def magnitude (v : Vec3) : ℝ := Real.sqrt (dot v v)

/-- `distance = lambda vectorA, vectorB: np.linalg.norm(vectorA - vectorB)`,
the Euclidean norm of the difference. -/
def distance (a b : Vec3) : ℝ := magnitude (vsub a b)

/-- Modelled from the spec: the GeometryTable (`constants` module, not
among the sources) — 12 vertex unit vectors, 20 face vertex-index
triples, 20 face-center vectors, per-face placement entries plus the
two special overrides, and the scalar constants `gel`, `gt`, `gdve`,
`garc` used by the exact transformation.  Index maps are total
functions; claims quantify only over in-range indices.  A placement
triple is `(xtranslate, ytranslate, rotation)`. -/
structure Geometry where
  facecount : ℕ
  XYZcenters : ℤ → Vec3
  vert_indices : ℤ → ℕ × ℕ × ℕ
  vertices : ℕ → Vec3
  gel : ℝ
  gt : ℝ
  gdve : ℝ
  garc : ℝ
  dymax_translate : ℤ → ℝ × ℝ × ℝ
  dymax_translate08_special : ℝ × ℝ × ℝ
  dymax_translate15_special : ℝ × ℝ × ℝ

/-- `math.radians`: degrees to radians. -/
def radians (d : ℝ) : ℝ := d * (Real.pi / 180)

/-- `lonlat2spherical(lng, lat)`: `h_theta = 90.0 - lat`; `h_phi = lng`,
bumped by 360 when `lng < 0`; both converted to radians. -/
def lonlat2spherical (lng lat : ℝ) : ℝ × ℝ :=
  let h_theta := 90 - lat
  let h_phi := if lng < 0 then lng + 360 else lng
  (radians h_theta, radians h_phi)

/-- `spherical2cartesian(theta, phi)`:
`(sin theta * cos phi, sin theta * sin phi, cos theta)`. -/
def spherical2cartesian (theta phi : ℝ) : Vec3 :=
  ⟨Real.sin theta * Real.cos phi,
   Real.sin theta * Real.sin phi,
   Real.cos theta⟩

/-- `math.atan2(y, x)`: the argument of the complex number `x + y i`,
valued in `(-π, π]` with `atan2 0 0 = 0`. -/
def atan2 (y x : ℝ) : ℝ := Complex.arg (x + y * Complex.I)

/-- `cartesian2spherical(XYZ)`: `phi = acos(z)`, `theta = atan2(y, x)`,
returned as `[theta, phi]` — azimuth first, polar second. -/
def cartesian2spherical (v : Vec3) : ℝ × ℝ :=
  let phi := Real.arccos v.z
  let theta := atan2 v.y v.x
  (theta, phi)

/-- One step of the face-search loop in `fullerTriangle`: replace the
running `(h_tri, h_dist1)` state when the distance from the face center
`XYZcenters[idx]` to the point is strictly smaller.  `h_dist1` starts
at `np.inf`, modelled by `⊤` in `WithTop ℝ`. -/
def scanStep (g : Geometry) (p : Vec3) (st : ℤ × WithTop ℝ) (idx : ℕ) :
    ℤ × WithTop ℝ :=
  if (magnitude (vsub (g.XYZcenters idx) p) : WithTop ℝ) < st.2 then
    ((idx : ℤ), (magnitude (vsub (g.XYZcenters idx) p) : WithTop ℝ))
  else st

/-- The `for idx in range(constants.facecount)` loop of `fullerTriangle`,
starting from `h_tri = -1`, `h_dist1 = np.inf`. -/
def faceScan (g : Geometry) (p : Vec3) : ℤ × WithTop ℝ :=
  (List.range g.facecount).foldl (scanStep g p) (-1, ⊤)

/-- The distances `h_dist1, h_dist2, h_dist3` from the point to the
three vertices (in the face's fixed order) of the face found by the
scan loop. -/
def lcdDists (g : Geometry) (p : Vec3) : ℝ × ℝ × ℝ :=
  let h_tri := (faceScan g p).1
  let vs := g.vert_indices h_tri
  (distance p (g.vertices vs.1),
   distance p (g.vertices vs.2.1),
   distance p (g.vertices vs.2.2))

/-- The `if / elif` chain computing `h_lcd` in `fullerTriangle`.  The
Python chain has no final `else`; if no branch fired, `h_lcd` would be
unbound, modelled by `none` (provably unreachable over a linear order,
see `lcdChain_isSome`). -/
def lcdChain (d1 d2 d3 : ℝ) : Option ℕ :=
  if d1 ≤ d2 ∧ d2 ≤ d3 then some 0
  else if d1 ≤ d3 ∧ d3 ≤ d2 then some 5
  else if d2 ≤ d1 ∧ d1 ≤ d3 then some 1
  else if d2 ≤ d3 ∧ d3 ≤ d1 then some 2
  else if d3 ≤ d1 ∧ d1 ≤ d2 then some 4
  else if d3 ≤ d2 ∧ d2 ≤ d1 then some 3
  else none

/-- `fullerTriangle(XYZ)`: the closest-face index from the scan loop
paired with the LCD index from the distance-ranking chain. -/
def fullerTriangle (g : Geometry) (p : Vec3) : ℤ × Option ℕ :=
  let h_tri := (faceScan g p).1
  let ds := lcdDists g p
  (h_tri, lcdChain ds.1 ds.2.1 ds.2.2)

/-- `rotate2d(angle, pointx, pointy)`: right-handed rotation in the
plane by `angle` degrees. -/
def rotate2d (angle pointx pointy : ℝ) : ℝ × ℝ :=
  let ha := radians angle
  (pointx * Real.cos ha - pointy * Real.sin ha,
   pointx * Real.sin ha + pointy * Real.cos ha)

/-- `rotate3d(axis, alpha, XYZ, reverse=True)`: rotation about axis
`0`/`1`/`2` (X/Y/Z) by `alpha` radians; when `reverse` (the default in
the source, and the only mode used by the pipeline) the angle is
negated first, giving a left-handed rotation.  Any other axis value
falls through and returns the input unchanged. -/
def rotate3d (axis : ℕ) (alpha : ℝ) (v : Vec3) (reverse : Bool) : Vec3 :=
  let a := if reverse then -alpha else alpha
  if axis = 0 then
    ⟨v.x,
     v.y * Real.cos a - v.z * Real.sin a,
     v.y * Real.sin a + v.z * Real.cos a⟩
  else if axis = 1 then
    ⟨v.x * Real.cos a + v.z * Real.sin a,
     v.y,
     -v.x * Real.sin a + v.z * Real.cos a⟩
  else if axis = 2 then
    ⟨v.x * Real.cos a - v.y * Real.sin a,
     v.x * Real.sin a + v.y * Real.cos a,
     v.z⟩
  else v

/-- Lines 206–249 of `dymax_point`: rotate the point into the template
triangle and apply the exact transformation equations, producing the
rescaled `(pointx, pointy)` before placement. -/
def dymax_point_raw (g : Geometry) (tri : ℤ) (p : Vec3) : ℝ × ℝ :=
  let v1 := (g.vert_indices tri).1
  let h0XYZ := p
  let h1XYZ := g.vertices v1
  let tp := cartesian2spherical (g.XYZcenters tri)
  let h0XYZ := rotate3d 2 tp.1 h0XYZ true
  let h1XYZ := rotate3d 2 tp.1 h1XYZ true
  let h0XYZ := rotate3d 1 tp.2 h0XYZ true
  let h1XYZ := rotate3d 1 tp.2 h1XYZ true
  let tp2 := cartesian2spherical h1XYZ
  let theta2 := tp2.1 - Real.pi / 2
  let h0XYZ := rotate3d 2 theta2 h0XYZ true
  let gz := Real.sqrt (1 - h0XYZ.x ^ 2 - h0XYZ.y ^ 2)
  let gs := Real.sqrt (5 + 2 * Real.sqrt 5) / (gz * Real.sqrt 15)
  let gxp := h0XYZ.x * gs
  let gyp := h0XYZ.y * gs
  let ga0p := 2 * gyp / Real.sqrt 3 + g.gel / 3
  let ga1p := gxp - gyp / Real.sqrt 3 + g.gel / 3
  let ga2p := g.gel / 3 - gxp - gyp / Real.sqrt 3
  let ga0 := g.gt + atan2 (ga0p - 0.5 * g.gel) g.gdve
  let ga1 := g.gt + atan2 (ga1p - 0.5 * g.gel) g.gdve
  let ga2 := g.gt + atan2 (ga2p - 0.5 * g.gel) g.gdve
  let gx := 0.5 * (ga1 - ga2)
  let gy := (2 * ga0 - ga1 - ga2) / (2 * Real.sqrt 3)
  (gx / g.garc, gy / g.garc)

/-- `dymax_point(tri, lcd, XYZ)`: the exact transformation followed by
the `Move and Rotate as Appropriate` block — the special placement for
face 8 with `lcd < 4`, the special placement for face 15 with
`lcd < 3`, otherwise the per-face table entry; then `rotate2d` by the
placement's rotation and translation by its offsets. -/
def dymax_point (g : Geometry) (tri : ℤ) (lcd : ℕ) (p : Vec3) : ℝ × ℝ :=
  let pt := dymax_point_raw g tri p
  let tr :=
    if tri = 8 ∧ lcd < 4 then g.dymax_translate08_special
    else if tri = 15 ∧ lcd < 3 then g.dymax_translate15_special
    else g.dymax_translate tri
  let r := rotate2d tr.2.2 pt.1 pt.2
  (r.1 + tr.1, r.2 + tr.2.1)

/-- The `tri, hlcd = fullerTriangle(XYZ); x, y = dymax_point(tri, hlcd, XYZ)`
idiom shared by `lonlat2dymax`, `vert2dymax` and `face2dymax`.  The
`none` branch is the (unreachable) unbound-`h_lcd` case of the chain. -/
def projectXYZ (g : Geometry) (p : Vec3) : Option (ℝ × ℝ) :=
  match fullerTriangle g p with
  | (tri, some hlcd) => some (dymax_point g tri hlcd p)
  | (_, none) => none

/-- Result of one `lonlat2dymax` call: the 2-tuple `(x, y)` when
`getlcd` is false, the 3-tuple `(x, y, lcd)` when it is true. -/
inductive DymaxResult where
  | xy (x y : ℝ)
  | xyl (x y : ℝ) (lcd : ℕ)

/-- `lonlat2dymax(lng, lat, getlcd)` without the cache: spherical, then
cartesian, then face/LCD classification, then the plane point; returns
the 3-tuple with the LCD index exactly when `getlcd`. -/
def lonlat2dymax (g : Geometry) (lng lat : ℝ) (getlcd : Bool) :
    Option DymaxResult :=
  match fullerTriangle g (spherical2cartesian (lonlat2spherical lng lat).1
      (lonlat2spherical lng lat).2) with
  | (tri, some lcd) =>
      some (if getlcd then
        DymaxResult.xyl
          (dymax_point g tri lcd (spherical2cartesian (lonlat2spherical lng lat).1
            (lonlat2spherical lng lat).2)).1
          (dymax_point g tri lcd (spherical2cartesian (lonlat2spherical lng lat).1
            (lonlat2spherical lng lat).2)).2
          lcd
      else
        DymaxResult.xy
          (dymax_point g tri lcd (spherical2cartesian (lonlat2spherical lng lat).1
            (lonlat2spherical lng lat).2)).1
          (dymax_point g tri lcd (spherical2cartesian (lonlat2spherical lng lat).1
            (lonlat2spherical lng lat).2)).2)
  | (_, none) => none

/-- The memoized entry point's key view: the `cached` decorator keys
the dictionary on the whole positional argument tuple
`(lng, lat, getlcd)`. -/
def lonlat2dymaxKey (g : Geometry) : ℝ × ℝ × Bool → Option DymaxResult :=
  fun a => lonlat2dymax g a.1 a.2.1 a.2.2

/-- Select component `0`, `1` or `2` of a face's vertex-index triple
(`constants.vert_indices[tri, i]`). -/
def tripleGet (t : ℕ × ℕ × ℕ) (i : ℕ) : ℕ :=
  if i = 0 then t.1 else if i = 1 then t.2.1 else t.2.2

/-- The blended point of the `face2dymax` loop body: the raw vertex
(even `jdx`) or the midpoint of the other two vertices (odd `jdx`),
then `XYZ * push + XYZcenters[faceIdx] * (1 - push)`. -/
def face2dymaxXYZ (g : Geometry) (faceIdx : ℤ) (push : ℝ) (atomic : Bool)
    (jdx : ℕ) : Vec3 :=
  let base :=
    if atomic then
      if jdx % 2 = 0 then
        g.vertices (tripleGet (g.vert_indices faceIdx) (jdx / 2))
      else
        smul (1 / 2)
          (vadd (g.vertices (tripleGet (g.vert_indices faceIdx) ((jdx / 2 + 1) % 3)))
                (g.vertices (tripleGet (g.vert_indices faceIdx) ((jdx / 2 + 2) % 3))))
    else g.vertices (tripleGet (g.vert_indices faceIdx) jdx)
  vadd (smul push base) (smul (1 - push) (g.XYZcenters faceIdx))

/-- `face2dymax(faceIdx, push, atomic)`: 6 (atomic) or 3 (plain)
projected boundary points, then `points[-1] = points[0]` closes the
ring (modelled by appending `points.take 1`). -/
def face2dymax (g : Geometry) (faceIdx : ℤ) (push : ℝ) (atomic : Bool) :
    Option (List (ℝ × ℝ)) :=
  (List.mapM (fun jdx => projectXYZ g (face2dymaxXYZ g faceIdx push atomic jdx))
      (List.range (if atomic then 6 else 3))).map
    (fun points => points ++ points.take 1)

/-- One call through the `cached` decorator: on a hit return the stored
result and leave the cache alone; on a miss compute, store, return.
The boolean records whether the wrapped function was actually invoked,
so that `no recomputation` is statable. -/
def callCached {α β : Type} [DecidableEq α] (raw : α → β)
    (cache : α → Option β) (a : α) : β × (α → Option β) × Bool :=
  match cache a with
  | some r => (r, cache, false)
  | none =>
      let r := raw a
      (r, fun a2 => if a2 = a then some r else cache a2, true)

/-- Stated from the spec (§4.3 step 7) for comparison with the code:
the placement is the special override exactly when
`(faceIndex = 8 ∧ lcdIndex < 4) ∨ (faceIndex = 15 ∧ lcdIndex < 3)`,
and the per-face table entry otherwise. -/
def placementSpec (g : Geometry) (tri : ℤ) (lcd : ℕ) : ℝ × ℝ × ℝ :=
  if (tri = 8 ∧ lcd < 4) ∨ (tri = 15 ∧ lcd < 3) then
    (if tri = 8 then g.dymax_translate08_special else g.dymax_translate15_special)
  else g.dymax_translate tri

/-! ### Helper lemmas -/

/-- The `h_lcd` chain always fires: over a linear order one of the six
orderings of `d1, d2, d3` holds, so the missing final `else` of the
Python chain is unreachable. -/
theorem lcdChain_isSome (d1 d2 d3 : ℝ) : (lcdChain d1 d2 d3).isSome := by
  unfold lcdChain
  split_ifs with h1 h2 h3 h4 h5 h6 <;> try simp
  rcases le_total d1 d2 with a | a <;>
    rcases le_total d2 d3 with b | b <;>
      rcases le_total d1 d3 with c | c <;> tauto

theorem fullerTriangle_lcd_eq (g : Geometry) (p : Vec3) :
    (fullerTriangle g p).2 =
      lcdChain (lcdDists g p).1 (lcdDists g p).2.1 (lcdDists g p).2.2 := rfl

theorem projectXYZ_total (g : Geometry) (p : Vec3) :
    ∃ q, projectXYZ g p = some q := by
  have h := lcdChain_isSome (lcdDists g p).1 (lcdDists g p).2.1 (lcdDists g p).2.2
  rw [Option.isSome_iff_exists] at h
  obtain ⟨n, hn⟩ := h
  refine ⟨dymax_point g (fullerTriangle g p).1 n p, ?_⟩
  unfold projectXYZ
  have hft : fullerTriangle g p = ((fullerTriangle g p).1, some n) := by
    rw [Prod.ext_iff]
    exact ⟨rfl, by rw [fullerTriangle_lcd_eq]; exact hn⟩
  rw [hft]

theorem dot_self_nonneg (v : Vec3) : 0 ≤ dot v v := by
  unfold dot
  nlinarith [sq_nonneg v.x, sq_nonneg v.y, sq_nonneg v.z]

theorem magnitude_nonneg (v : Vec3) : 0 ≤ magnitude v :=
  Real.sqrt_nonneg _

theorem magnitude_vsub_self (p : Vec3) : magnitude (vsub p p) = 0 := by
  unfold magnitude vsub dot
  simp

theorem magnitude_vsub_pos {a b : Vec3} (h : a ≠ b) :
    0 < magnitude (vsub a b) := by
  unfold magnitude
  rw [Real.sqrt_pos]
  rcases lt_or_eq_of_le (dot_self_nonneg (vsub a b)) with hlt | heq
  · exact hlt
  · exfalso
    apply h
    have h0 : (a.x - b.x) * (a.x - b.x) + (a.y - b.y) * (a.y - b.y)
        + (a.z - b.z) * (a.z - b.z) = 0 := by
      have h1 := heq.symm
      unfold dot vsub at h1
      simpa using h1
    ext
    · nlinarith [sq_nonneg (a.x - b.x), sq_nonneg (a.y - b.y), sq_nonneg (a.z - b.z)]
    · nlinarith [sq_nonneg (a.x - b.x), sq_nonneg (a.y - b.y), sq_nonneg (a.z - b.z)]
    · nlinarith [sq_nonneg (a.x - b.x), sq_nonneg (a.y - b.y), sq_nonneg (a.z - b.z)]

/-- The running minimum of the scan loop stays strictly positive while
every visited face center is at strictly positive distance. -/
theorem scan_pos (g : Geometry) (p : Vec3) (l : List ℕ) :
    ∀ st : ℤ × WithTop ℝ, 0 < st.2 →
      (∀ j ∈ l, (0 : ℝ) < magnitude (vsub (g.XYZcenters j) p)) →
      0 < (l.foldl (scanStep g p) st).2 := by
  induction l with
  | nil => intro st h0 _; simpa using h0
  | cons a l ih =>
      intro st h0 hl
      simp only [List.foldl_cons]
      apply ih
      · unfold scanStep
        split
        · simp only
          have ha := hl a (by simp)
          exact_mod_cast ha
        · exact h0
      · intro j hj
        exact hl j (by simp [hj])

/-- Once the scan state reaches distance zero it never changes again:
no later center can be at negative distance. -/
theorem scan_frozen (g : Geometry) (p : Vec3) (l : List ℕ) :
    ∀ t : ℤ, l.foldl (scanStep g p) (t, ((0 : ℝ) : WithTop ℝ)) =
      (t, ((0 : ℝ) : WithTop ℝ)) := by
  induction l with
  | nil => intro t; rfl
  | cons a l ih =>
      intro t
      simp only [List.foldl_cons]
      have hstep : scanStep g p (t, ((0 : ℝ) : WithTop ℝ)) a =
          (t, ((0 : ℝ) : WithTop ℝ)) := by
        unfold scanStep
        rw [if_neg]
        simp only [not_lt]
        exact_mod_cast magnitude_nonneg (vsub (g.XYZcenters a) p)
      rw [hstep, ih]

/-- Running the scan loop on a face's own center returns that face:
its own distance is zero, every earlier distinct center keeps the
running minimum positive, and no later center can strictly improve. -/
theorem faceScan_center (g : Geometry) (f : ℕ) (hf : f < g.facecount)
    (hdist : ∀ i j : ℕ, i < g.facecount → j < g.facecount → i ≠ j →
      g.XYZcenters i ≠ g.XYZcenters j) :
    faceScan g (g.XYZcenters f) = ((f : ℤ), ((0 : ℝ) : WithTop ℝ)) := by
  set p := g.XYZcenters (f : ℤ) with hp
  have hfc : g.facecount = (f + 1) + (g.facecount - (f + 1)) := by omega
  unfold faceScan
  rw [hfc, List.range_add, List.foldl_append, List.range_succ, List.foldl_append]
  have hpos : 0 < ((List.range f).foldl (scanStep g p) (-1, ⊤)).2 := by
    apply scan_pos
    · simp
    · intro j hj
      rw [List.mem_range] at hj
      apply magnitude_vsub_pos
      exact hdist j f (by omega) hf (by omega)
  have hzero : magnitude (vsub (g.XYZcenters (f : ℤ)) p) = 0 := by
    rw [hp]; exact magnitude_vsub_self _
  have hstep : (List.foldl (scanStep g p) ((List.range f).foldl (scanStep g p) (-1, ⊤)) [f]) =
      ((f : ℤ), ((0 : ℝ) : WithTop ℝ)) := by
    simp only [List.foldl_cons, List.foldl_nil]
    unfold scanStep
    rw [if_pos]
    · simp [hzero]
    · rw [hzero]
      exact_mod_cast hpos
  rw [hstep, scan_frozen]

/-- A small concrete geometry table used to instantiate the theorems
on explicit inputs: two faces with distinct centers, three unit
vertices shared by both faces. -/
def sampleGeometry : Geometry where
  facecount := 2
  XYZcenters := fun i => if i = 0 then ⟨0, 0, 0⟩ else ⟨2, 2, 2⟩
  vert_indices := fun _ => (0, 1, 2)
  vertices := fun n => if n = 0 then ⟨1, 0, 0⟩ else if n = 1 then ⟨0, 1, 0⟩ else ⟨0, 0, 1⟩
  gel := 1
  gt := 1
  gdve := 1
  garc := 1
  dymax_translate := fun _ => (0, 0, 0)
  dymax_translate08_special := (0, 0, 0)
  dymax_translate15_special := (0, 0, 0)

theorem sampleGeometry_centers_distinct :
    ∀ i j : ℕ, i < sampleGeometry.facecount → j < sampleGeometry.facecount →
      i ≠ j → sampleGeometry.XYZcenters i ≠ sampleGeometry.XYZcenters j := by
  intro i j hi hj hne
  have h2 : sampleGeometry.facecount = 2 := rfl
  rw [h2] at hi hj
  interval_cases i <;> interval_cases j <;>
    simp_all [sampleGeometry, Vec3.mk.injEq]

/-! ### Claim theorems -/

/-- C10: for each axis 0 (X), 1 (Y), 2 (Z), any angle, any vector and
either rotation direction, `rotate3d` leaves the coordinate along the
rotation axis unchanged. -/
theorem rotate3d_fixes_axis (alpha : ℝ) (v : Vec3) (reverse : Bool) :
    (rotate3d 0 alpha v reverse).x = v.x
    ∧ (rotate3d 1 alpha v reverse).y = v.y
    ∧ (rotate3d 2 alpha v reverse).z = v.z := by
  unfold rotate3d
  norm_num

/-- C6: `fullerTriangle` applied to a face's own center returns that
face index — the center is at distance zero from itself, every other
(distinct) center is at strictly positive distance, and the scan uses
strict-less comparison with the first minimum winning. -/
theorem fullerTriangle_center_reflexive (g : Geometry) (f : ℕ)
    (hf : f < g.facecount)
    (hdist : ∀ i j : ℕ, i < g.facecount → j < g.facecount → i ≠ j →
      g.XYZcenters i ≠ g.XYZcenters j) :
    (fullerTriangle g (g.XYZcenters f)).1 = (f : ℤ) := by
  show (faceScan g (g.XYZcenters f)).1 = (f : ℤ)
  rw [faceScan_center g f hf hdist]

/-- Witness for C6 at the sample geometry: face 1's center selects
face 1. -/
theorem fullerTriangle_center_reflexive_spot :
    (fullerTriangle sampleGeometry (sampleGeometry.XYZcenters 1)).1 = 1 := by
  have h := fullerTriangle_center_reflexive sampleGeometry 1 (by norm_num [sampleGeometry])
    sampleGeometry_centers_distinct
  exact_mod_cast h

/-- C1: the LCD index returned by `fullerTriangle` is computed from the
distances `d1, d2, d3` of the point to the located face's vertices by
the exact six-line ranking chain, earlier lines winning on ties; in
particular a point equidistant from all three vertices gets LCD 0. -/
theorem fullerTriangle_lcd_ranking (g : Geometry) (p : Vec3) (d1 d2 d3 : ℝ)
    (h1 : d1 = (lcdDists g p).1) (h2 : d2 = (lcdDists g p).2.1)
    (h3 : d3 = (lcdDists g p).2.2) :
    ((fullerTriangle g p).2 = lcdChain d1 d2 d3)
    ∧ (d1 ≤ d2 ∧ d2 ≤ d3 → (fullerTriangle g p).2 = some 0)
    ∧ (¬(d1 ≤ d2 ∧ d2 ≤ d3) → d1 ≤ d3 ∧ d3 ≤ d2 →
        (fullerTriangle g p).2 = some 5)
    ∧ (¬(d1 ≤ d2 ∧ d2 ≤ d3) → ¬(d1 ≤ d3 ∧ d3 ≤ d2) → d2 ≤ d1 ∧ d1 ≤ d3 →
        (fullerTriangle g p).2 = some 1)
    ∧ (¬(d1 ≤ d2 ∧ d2 ≤ d3) → ¬(d1 ≤ d3 ∧ d3 ≤ d2) → ¬(d2 ≤ d1 ∧ d1 ≤ d3) →
        d2 ≤ d3 ∧ d3 ≤ d1 → (fullerTriangle g p).2 = some 2)
    ∧ (¬(d1 ≤ d2 ∧ d2 ≤ d3) → ¬(d1 ≤ d3 ∧ d3 ≤ d2) → ¬(d2 ≤ d1 ∧ d1 ≤ d3) →
        ¬(d2 ≤ d3 ∧ d3 ≤ d1) → d3 ≤ d1 ∧ d1 ≤ d2 →
        (fullerTriangle g p).2 = some 4)
    ∧ (¬(d1 ≤ d2 ∧ d2 ≤ d3) → ¬(d1 ≤ d3 ∧ d3 ≤ d2) → ¬(d2 ≤ d1 ∧ d1 ≤ d3) →
        ¬(d2 ≤ d3 ∧ d3 ≤ d1) → ¬(d3 ≤ d1 ∧ d1 ≤ d2) → d3 ≤ d2 ∧ d2 ≤ d1 →
        (fullerTriangle g p).2 = some 3)
    ∧ (d1 = d2 → d2 = d3 → (fullerTriangle g p).2 = some 0) := by
  subst h1 h2 h3
  rw [fullerTriangle_lcd_eq]
  unfold lcdChain
  refine ⟨rfl, ?_, ?_, ?_, ?_, ?_, ?_, ?_⟩
  · intro hc; rw [if_pos hc]
  · intro hn1 hc; rw [if_neg hn1, if_pos hc]
  · intro hn1 hn2 hc; rw [if_neg hn1, if_neg hn2, if_pos hc]
  · intro hn1 hn2 hn3 hc
    rw [if_neg hn1, if_neg hn2, if_neg hn3, if_pos hc]
  · intro hn1 hn2 hn3 hn4 hc
    rw [if_neg hn1, if_neg hn2, if_neg hn3, if_neg hn4, if_pos hc]
  · intro hn1 hn2 hn3 hn4 hn5 hc
    rw [if_neg hn1, if_neg hn2, if_neg hn3, if_neg hn4, if_neg hn5, if_pos hc]
  · intro he1 he2
    rw [if_pos ⟨le_of_eq he1, le_of_eq he2⟩]

/-- Witness for C1 at the sample geometry: the point `(0,0,0)` is the
center of face 0 and is equidistant from all three of its vertices, so
its LCD index is 0. -/
theorem fullerTriangle_lcd_ranking_spot :
    (fullerTriangle sampleGeometry ⟨0, 0, 0⟩).2 = some 0 := by
  have hc0 : sampleGeometry.XYZcenters ((0 : ℕ) : ℤ) = ⟨0, 0, 0⟩ := by
    simp [sampleGeometry]
  have hscan : faceScan sampleGeometry ⟨0, 0, 0⟩ = (((0 : ℕ) : ℤ), ((0 : ℝ) : WithTop ℝ)) := by
    have h := faceScan_center sampleGeometry 0 (by norm_num [sampleGeometry])
      sampleGeometry_centers_distinct
    rwa [hc0] at h
  have hd : lcdDists sampleGeometry ⟨0, 0, 0⟩ = (1, 1, 1) := by
    unfold lcdDists
    rw [hscan]
    simp only [sampleGeometry, distance, magnitude, vsub, dot]
    norm_num [Real.sqrt_one]
  exact (fullerTriangle_lcd_ranking sampleGeometry ⟨0, 0, 0⟩ 1 1 1
    (by rw [hd]) (by rw [hd]) (by rw [hd])).2.2.2.2.2.2.2 rfl rfl

/-- C2: `dymax_point` applies the special override placement exactly
when `(tri = 8 ∧ lcd < 4) ∨ (tri = 15 ∧ lcd < 3)` (the spec-side
`placementSpec`), otherwise the per-face table entry; in both cases it
first rotates the rescaled point by the placement's rotation angle
(`rotate2d`, right-handed) and then translates by the placement's
offsets. -/
theorem dymax_point_placement (g : Geometry) (tri : ℤ) (lcd : ℕ) (p : Vec3) :
    dymax_point g tri lcd p =
      ((rotate2d (placementSpec g tri lcd).2.2 (dymax_point_raw g tri p).1
          (dymax_point_raw g tri p).2).1 + (placementSpec g tri lcd).1,
       (rotate2d (placementSpec g tri lcd).2.2 (dymax_point_raw g tri p).1
          (dymax_point_raw g tri p).2).2 + (placementSpec g tri lcd).2.1) := by
  unfold dymax_point placementSpec
  by_cases h8 : tri = 8 ∧ lcd < 4
  · rw [if_pos h8, if_pos (Or.inl h8), if_pos h8.1]
  · by_cases h15 : tri = 15 ∧ lcd < 3
    · have hne8 : ¬ tri = 8 := by
        rintro rfl
        exact absurd h15.1 (by norm_num)
      rw [if_neg h8, if_pos h15, if_pos (Or.inr h15), if_neg hne8]
    · rw [if_neg h8, if_neg h15, if_neg (not_or.mpr ⟨h8, h15⟩)]

/-- C4: `cartesian2spherical` returns `(atan2 y x, acos z)` — azimuth
first, polar second — the swapped roles versus `spherical2cartesian`,
whose first argument is the polar angle: round-tripping a spherical
pair returns it swapped. -/
theorem cartesian2spherical_role_swap (v : Vec3) (theta phi : ℝ) :
    cartesian2spherical v = (atan2 v.y v.x, Real.arccos v.z)
    ∧ spherical2cartesian theta phi =
        ⟨Real.sin theta * Real.cos phi, Real.sin theta * Real.sin phi,
         Real.cos theta⟩
    ∧ (0 < theta → theta < Real.pi → -Real.pi < phi → phi ≤ Real.pi →
        cartesian2spherical (spherical2cartesian theta phi) = (phi, theta)) := by
  refine ⟨rfl, rfl, ?_⟩
  intro h1 h2 h3 h4
  unfold cartesian2spherical spherical2cartesian atan2
  simp only
  rw [Prod.mk.injEq]
  constructor
  · have hmul : ((Real.sin theta * Real.cos phi : ℝ) : ℂ)
        + ((Real.sin theta * Real.sin phi : ℝ) : ℂ) * Complex.I =
        ((Real.sin theta : ℝ) : ℂ)
          * (((Real.cos phi : ℝ) : ℂ) + ((Real.sin phi : ℝ) : ℂ) * Complex.I) := by
      push_cast
      ring
    rw [hmul, Complex.arg_real_mul _ (Real.sin_pos_of_pos_of_lt_pi h1 h2),
      Complex.ofReal_cos, Complex.ofReal_sin]
    exact Complex.arg_cos_add_sin_mul_I ⟨h3, h4⟩
  · exact Real.arccos_cos h1.le h2.le

/-- Witness for C4: round-tripping the spherical pair `(π/2, 0)` —
polar angle first on the way in — returns `(0, π/2)`, azimuth first on
the way out. -/
theorem cartesian2spherical_role_swap_spot :
    cartesian2spherical (spherical2cartesian (Real.pi / 2) 0) = (0, Real.pi / 2) :=
  (cartesian2spherical_role_swap ⟨0, 0, 0⟩ (Real.pi / 2) 0).2.2
    (by linarith [Real.pi_pos]) (by linarith [Real.pi_pos])
    (by linarith [Real.pi_pos]) Real.pi_nonneg

/-- C5 (amended): `lonlat2spherical` returns
`(radians (90 - lat), radians lng)` for `lng ≥ 0` and
`(radians (90 - lat), radians (lng + 360))` for `lng < 0`, with no
input validation; at `(179, 89)` the exact value is
`(π/180, 179·π/180)` (whose IEEE-754 double approximations are the
quoted decimals). -/
theorem lonlat2spherical_formula (lng lat : ℝ) :
    (0 ≤ lng → lonlat2spherical lng lat = (radians (90 - lat), radians lng))
    ∧ (lng < 0 → lonlat2spherical lng lat = (radians (90 - lat), radians (lng + 360)))
    ∧ lonlat2spherical 179 89 = (Real.pi / 180, 179 * (Real.pi / 180)) := by
  refine ⟨?_, ?_, ?_⟩
  · intro h
    unfold lonlat2spherical
    rw [if_neg (not_lt.mpr h)]
  · intro h
    unfold lonlat2spherical
    rw [if_pos h]
  · unfold lonlat2spherical radians
    norm_num

/-- Witness for C5 at `(179, 89)`: the nonnegative-longitude branch. -/
theorem lonlat2spherical_formula_spot :
    lonlat2spherical 179 89 = (radians (90 - 89), radians 179) :=
  (lonlat2spherical_formula 179 89).1 (by norm_num)

/-- C5 counterexample: over the reals `lonlat2spherical 179 89` is
`(π/180, 179π/180)`, and `π/180` is irrational, so it does not equal
the decimal pair claimed (those decimals are the nearest binary64
floats, not the exact values). -/
theorem lonlat2spherical_decimal_ne :
    lonlat2spherical 179 89 ≠
      ((0.017453292519943295 : ℝ), (3.12413936106985 : ℝ)) := by
  intro h
  have h0 : lonlat2spherical 179 89 = (Real.pi / 180, 179 * (Real.pi / 180)) := by
    unfold lonlat2spherical radians
    norm_num
  rw [h0] at h
  have h1 : Real.pi / 180 = (0.017453292519943295 : ℝ) := congrArg Prod.fst h
  have h2 : Real.pi = ((3.1415926535897931 : ℚ) : ℝ) := by
    have h3 : Real.pi = (0.017453292519943295 : ℝ) * 180 := by
      rw [← h1]; ring
    rw [h3]; norm_num
  exact irrational_pi ⟨(3.1415926535897931 : ℚ), h2.symm⟩

/-- Stated from the spec (§4.5): a boundary point pulled toward the
face center by fraction `push` — `push = 1` gives the point itself,
`push = 0` the center. -/
def pulledPoint (g : Geometry) (f : ℤ) (push : ℝ) (v : Vec3) : Vec3 :=
  vadd (smul push v) (smul (1 - push) (g.XYZcenters f))

/-- C8: `face2dymax` always returns a closed ring (first point repeated
at the end) of 4 points (non-atomic: the three face vertices pulled
toward the center by `push`) or 7 points (atomic: vertices and edge
midpoints alternating, each pulled toward the center). -/
theorem face2dymax_ring (g : Geometry) (faceIdx : ℤ) (push : ℝ) :
    (∃ q0 q1 q2,
      projectXYZ g (pulledPoint g faceIdx push
        (g.vertices (tripleGet (g.vert_indices faceIdx) 0))) = some q0
      ∧ projectXYZ g (pulledPoint g faceIdx push
          (g.vertices (tripleGet (g.vert_indices faceIdx) 1))) = some q1
      ∧ projectXYZ g (pulledPoint g faceIdx push
          (g.vertices (tripleGet (g.vert_indices faceIdx) 2))) = some q2
      ∧ face2dymax g faceIdx push false = some [q0, q1, q2, q0])
    ∧ (∃ r0 r1 r2 r3 r4 r5,
      projectXYZ g (pulledPoint g faceIdx push
        (g.vertices (tripleGet (g.vert_indices faceIdx) 0))) = some r0
      ∧ projectXYZ g (pulledPoint g faceIdx push (smul (1 / 2)
          (vadd (g.vertices (tripleGet (g.vert_indices faceIdx) 1))
                (g.vertices (tripleGet (g.vert_indices faceIdx) 2))))) = some r1
      ∧ projectXYZ g (pulledPoint g faceIdx push
          (g.vertices (tripleGet (g.vert_indices faceIdx) 1))) = some r2
      ∧ projectXYZ g (pulledPoint g faceIdx push (smul (1 / 2)
          (vadd (g.vertices (tripleGet (g.vert_indices faceIdx) 2))
                (g.vertices (tripleGet (g.vert_indices faceIdx) 0))))) = some r3
      ∧ projectXYZ g (pulledPoint g faceIdx push
          (g.vertices (tripleGet (g.vert_indices faceIdx) 2))) = some r4
      ∧ projectXYZ g (pulledPoint g faceIdx push (smul (1 / 2)
          (vadd (g.vertices (tripleGet (g.vert_indices faceIdx) 0))
                (g.vertices (tripleGet (g.vert_indices faceIdx) 1))))) = some r5
      ∧ face2dymax g faceIdx push true = some [r0, r1, r2, r3, r4, r5, r0])
    ∧ (∀ pts, face2dymax g faceIdx push false = some pts →
        pts.length = 4 ∧ pts.head? = pts.getLast?)
    ∧ (∀ pts, face2dymax g faceIdx push true = some pts →
        pts.length = 7 ∧ pts.head? = pts.getLast?) := by
  have e0 : face2dymaxXYZ g faceIdx push false 0 = pulledPoint g faceIdx push
      (g.vertices (tripleGet (g.vert_indices faceIdx) 0)) := by
    norm_num [face2dymaxXYZ, pulledPoint]
  have e1 : face2dymaxXYZ g faceIdx push false 1 = pulledPoint g faceIdx push
      (g.vertices (tripleGet (g.vert_indices faceIdx) 1)) := by
    norm_num [face2dymaxXYZ, pulledPoint]
  have e2 : face2dymaxXYZ g faceIdx push false 2 = pulledPoint g faceIdx push
      (g.vertices (tripleGet (g.vert_indices faceIdx) 2)) := by
    norm_num [face2dymaxXYZ, pulledPoint]
  have a0 : face2dymaxXYZ g faceIdx push true 0 = pulledPoint g faceIdx push
      (g.vertices (tripleGet (g.vert_indices faceIdx) 0)) := by
    norm_num [face2dymaxXYZ, pulledPoint]
  have a1 : face2dymaxXYZ g faceIdx push true 1 = pulledPoint g faceIdx push
      (smul (1 / 2) (vadd (g.vertices (tripleGet (g.vert_indices faceIdx) 1))
        (g.vertices (tripleGet (g.vert_indices faceIdx) 2)))) := by
    norm_num [face2dymaxXYZ, pulledPoint]
  have a2 : face2dymaxXYZ g faceIdx push true 2 = pulledPoint g faceIdx push
      (g.vertices (tripleGet (g.vert_indices faceIdx) 1)) := by
    norm_num [face2dymaxXYZ, pulledPoint]
  have a3 : face2dymaxXYZ g faceIdx push true 3 = pulledPoint g faceIdx push
      (smul (1 / 2) (vadd (g.vertices (tripleGet (g.vert_indices faceIdx) 2))
        (g.vertices (tripleGet (g.vert_indices faceIdx) 0)))) := by
    norm_num [face2dymaxXYZ, pulledPoint]
  have a4 : face2dymaxXYZ g faceIdx push true 4 = pulledPoint g faceIdx push
      (g.vertices (tripleGet (g.vert_indices faceIdx) 2)) := by
    norm_num [face2dymaxXYZ, pulledPoint]
  have a5 : face2dymaxXYZ g faceIdx push true 5 = pulledPoint g faceIdx push
      (smul (1 / 2) (vadd (g.vertices (tripleGet (g.vert_indices faceIdx) 0))
        (g.vertices (tripleGet (g.vert_indices faceIdx) 1)))) := by
    norm_num [face2dymaxXYZ, pulledPoint]
  obtain ⟨q0, h0⟩ := projectXYZ_total g (face2dymaxXYZ g faceIdx push false 0)
  obtain ⟨q1, h1⟩ := projectXYZ_total g (face2dymaxXYZ g faceIdx push false 1)
  obtain ⟨q2, h2⟩ := projectXYZ_total g (face2dymaxXYZ g faceIdx push false 2)
  obtain ⟨r0, k0⟩ := projectXYZ_total g (face2dymaxXYZ g faceIdx push true 0)
  obtain ⟨r1, k1⟩ := projectXYZ_total g (face2dymaxXYZ g faceIdx push true 1)
  obtain ⟨r2, k2⟩ := projectXYZ_total g (face2dymaxXYZ g faceIdx push true 2)
  obtain ⟨r3, k3⟩ := projectXYZ_total g (face2dymaxXYZ g faceIdx push true 3)
  obtain ⟨r4, k4⟩ := projectXYZ_total g (face2dymaxXYZ g faceIdx push true 4)
  obtain ⟨r5, k5⟩ := projectXYZ_total g (face2dymaxXYZ g faceIdx push true 5)
  have hF : face2dymax g faceIdx push false = some [q0, q1, q2, q0] := by
    unfold face2dymax
    have hrg : List.range (if (false : Bool) then 6 else 3) = [0, 1, 2] := by decide
    rw [hrg]
    simp [List.mapM.loop, h0, h1, h2]
  have hT : face2dymax g faceIdx push true = some [r0, r1, r2, r3, r4, r5, r0] := by
    unfold face2dymax
    have hrg : List.range (if (true : Bool) then 6 else 3) = [0, 1, 2, 3, 4, 5] := by decide
    rw [hrg]
    simp [List.mapM.loop, k0, k1, k2, k3, k4, k5]
  refine ⟨⟨q0, q1, q2, ?_, ?_, ?_, hF⟩,
    ⟨r0, r1, r2, r3, r4, r5, ?_, ?_, ?_, ?_, ?_, ?_, hT⟩, ?_, ?_⟩
  · rw [← e0]; exact h0
  · rw [← e1]; exact h1
  · rw [← e2]; exact h2
  · rw [← a0]; exact k0
  · rw [← a1]; exact k1
  · rw [← a2]; exact k2
  · rw [← a3]; exact k3
  · rw [← a4]; exact k4
  · rw [← a5]; exact k5
  · intro pts hpts
    rw [hF] at hpts
    cases hpts
    exact ⟨rfl, rfl⟩
  · intro pts hpts
    rw [hT] at hpts
    cases hpts
    exact ⟨rfl, rfl⟩

/-- Witness for C8 at the sample geometry, face 0, `push = 1`: the
non-atomic quad is a closed ring of length 4. -/
theorem face2dymax_ring_spot :
    ∃ pts, face2dymax sampleGeometry 0 1 false = some pts
      ∧ pts.length = 4 ∧ pts.head? = pts.getLast? := by
  obtain ⟨q0, q1, q2, _, _, _, hF⟩ := (face2dymax_ring sampleGeometry 0 1).1
  have hlen := (face2dymax_ring sampleGeometry 0 1).2.2.1 [q0, q1, q2, q0] hF
  exact ⟨[q0, q1, q2, q0], hF, hlen.1, hlen.2⟩

/-- After any call, the cache holds the returned result under the
called key. -/
theorem callCached_self {α β : Type} [DecidableEq α] (raw : α → β)
    (c : α → Option β) (a : α) :
    (callCached raw c a).2.1 a = some ((callCached raw c a).1) := by
  unfold callCached
  cases hc : c a with
  | some r => simp [hc]
  | none => simp [hc]

/-- A call on a key already in the cache returns the stored value,
leaves the cache unchanged and does not invoke the wrapped function. -/
theorem callCached_hit {α β : Type} [DecidableEq α] (raw : α → β)
    (c : α → Option β) (a : α) (r : β) (h : c a = some r) :
    callCached raw c a = (r, c, false) := by
  unfold callCached
  rw [h]

/-- A call on a missing key computes, stores and reports computation. -/
theorem callCached_miss {α β : Type} [DecidableEq α] (raw : α → β)
    (c : α → Option β) (a : α) (h : c a = none) :
    callCached raw c a =
      (raw a, fun a2 => if a2 = a then some (raw a) else c a2, true) := by
  unfold callCached
  rw [h]

/-- Every result produced by `lonlat2dymax` is the 3-tuple form when
`getlcd` is true and the 2-tuple form when it is false (the LCD chain
always fires, so the pipeline never returns `none`). -/
theorem lonlat2dymax_shape (g : Geometry) (lng lat : ℝ) (b : Bool) :
    ∃ x y lcd, lonlat2dymax g lng lat b =
      some (if b then DymaxResult.xyl x y lcd else DymaxResult.xy x y) := by
  set XYZ := spherical2cartesian (lonlat2spherical lng lat).1
    (lonlat2spherical lng lat).2 with hXYZ
  have h := lcdChain_isSome (lcdDists g XYZ).1 (lcdDists g XYZ).2.1 (lcdDists g XYZ).2.2
  rw [Option.isSome_iff_exists] at h
  obtain ⟨n, hn⟩ := h
  have hft : fullerTriangle g XYZ = ((fullerTriangle g XYZ).1, some n) := by
    rw [Prod.ext_iff]
    exact ⟨rfl, by rw [fullerTriangle_lcd_eq]; exact hn⟩
  refine ⟨(dymax_point g (fullerTriangle g XYZ).1 n XYZ).1,
    (dymax_point g (fullerTriangle g XYZ).1 n XYZ).2, n, ?_⟩
  unfold lonlat2dymax
  rw [← hXYZ, hft]

/-- C7: the memoized converter is deterministic — a second call with
the identical argument tuple returns exactly the value cached by the
first call, without recomputation (`computed` flag false). -/
theorem lonlat2dymax_deterministic (g : Geometry)
    (c : ℝ × ℝ × Bool → Option (Option DymaxResult)) (a : ℝ × ℝ × Bool) :
    (callCached (lonlat2dymaxKey g) ((callCached (lonlat2dymaxKey g) c a).2.1) a).1 =
      (callCached (lonlat2dymaxKey g) c a).1
    ∧ (callCached (lonlat2dymaxKey g)
        ((callCached (lonlat2dymaxKey g) c a).2.1) a).2.2 = false := by
  have h := callCached_self (lonlat2dymaxKey g) c a
  rw [callCached_hit (lonlat2dymaxKey g) _ a _ h]
  exact ⟨rfl, rfl⟩

/-- A Python call to `lonlat2dymax`: either two positional arguments
with `getlcd` defaulted (`none`) or passed as a keyword (`some b`), or
all three arguments positional.  The `cached` wrapper sees only the
positional tuple `args`; `kwargs` never reach the key. -/
inductive CallArgs where
  | two (lng lat : ℝ) (kwlcd : Option Bool)
  | three (lng lat : ℝ) (getlcd : Bool)

/-- The key space of the memo dictionary: the positional argument
tuple, of length two or three. -/
abbrev CacheKey : Type := (ℝ × ℝ) ⊕ (ℝ × ℝ × Bool)

/-- The dictionary key of a call — the positional `args` tuple only;
a keyword or defaulted `getlcd` does not appear. -/
def argsKey : CallArgs → CacheKey
  | .two lng lat _ => Sum.inl (lng, lat)
  | .three lng lat b => Sum.inr (lng, lat, b)

/-- The `getlcd` value the wrapped function actually receives:
positional if given, else the keyword, else the default `False`. -/
def argsLcd : CallArgs → Bool
  | .two _ _ kw => kw.getD false
  | .three _ _ b => b

/-- The wrapped function applied to the full call (`function(*args,
**kwargs)` in the decorator's miss branch). -/
def lonlat2dymaxArgs (g : Geometry) : CallArgs → Option DymaxResult
  | .two lng lat kw => lonlat2dymax g lng lat (kw.getD false)
  | .three lng lat b => lonlat2dymax g lng lat b

/-- One call to the memoized `lonlat2dymax` as Python executes it: the
lookup and the store both use `argsKey` (the positional tuple), while
the computation on a miss uses the full call including `kwargs`.  The
boolean records whether the wrapped function was invoked. -/
def cachedCallPy (g : Geometry) (cache : CacheKey → Option (Option DymaxResult))
    (a : CallArgs) :
    Option DymaxResult × (CacheKey → Option (Option DymaxResult)) × Bool :=
  match cache (argsKey a) with
  | some r => (r, cache, false)
  | none =>
      let r := lonlat2dymaxArgs g a
      (r, fun k => if k = argsKey a then some r else cache k, true)

/-- A hit returns the stored value, leaves the cache alone and does
not invoke the wrapped function. -/
theorem cachedCallPy_hit (g : Geometry) (cache : CacheKey → Option (Option DymaxResult))
    (a : CallArgs) (r : Option DymaxResult) (h : cache (argsKey a) = some r) :
    cachedCallPy g cache a = (r, cache, false) := by
  unfold cachedCallPy
  rw [h]

/-- A miss computes with the call's effective `getlcd`, stores the
result under the positional key and reports computation. -/
theorem cachedCallPy_miss (g : Geometry) (cache : CacheKey → Option (Option DymaxResult))
    (a : CallArgs) (h : cache (argsKey a) = none) :
    cachedCallPy g cache a =
      (lonlat2dymaxArgs g a,
       fun k => if k = argsKey a then some (lonlat2dymaxArgs g a) else cache k,
       true) := by
  unfold cachedCallPy
  rw [h]

/-- After any call the cache holds the returned value under the call's
positional key. -/
theorem cachedCallPy_self (g : Geometry) (cache : CacheKey → Option (Option DymaxResult))
    (a : CallArgs) :
    (cachedCallPy g cache a).2.1 (argsKey a) = some ((cachedCallPy g cache a).1) := by
  unfold cachedCallPy
  cases hc : cache (argsKey a) with
  | some r => simp [hc]
  | none => simp [hc]

/-- Discriminates the 3-tuple result form. -/
def isTriple : Option DymaxResult → Bool
  | some (DymaxResult.xyl _ _ _) => true
  | _ => false

/-- C3 counterexample: from the empty cache, `lonlat2dymax(5, 5)`
caches its 2-tuple under the positional key `(5, 5)`; the later call
`lonlat2dymax(5, 5, getlcd=True)` has the same positional tuple, hits
that entry and returns the cached 2-tuple — not a 3-tuple — without
recomputation; and `lonlat2dymax(5, 5, False)`, identical to the first
call in `(lng, lat, includeLcd)`, misses (key `(5, 5, False)`) and
recomputes. -/
theorem cached_kwarg_collision :
    isTriple (cachedCallPy sampleGeometry
        (cachedCallPy sampleGeometry (fun _ => none) (CallArgs.two 5 5 none)).2.1
        (CallArgs.two 5 5 (some true))).1 = false
    ∧ (cachedCallPy sampleGeometry
        (cachedCallPy sampleGeometry (fun _ => none) (CallArgs.two 5 5 none)).2.1
        (CallArgs.two 5 5 (some true))).2.2 = false
    ∧ (cachedCallPy sampleGeometry
        (cachedCallPy sampleGeometry (fun _ => none) (CallArgs.two 5 5 none)).2.1
        (CallArgs.three 5 5 false)).2.2 = true := by
  have h1 : cachedCallPy sampleGeometry (fun _ => none) (CallArgs.two 5 5 none) =
      (lonlat2dymax sampleGeometry 5 5 false,
       fun k => if k = argsKey (CallArgs.two 5 5 none)
         then some (lonlat2dymax sampleGeometry 5 5 false) else none,
       true) :=
    cachedCallPy_miss sampleGeometry (fun _ => none) (CallArgs.two 5 5 none) rfl
  have hkey : argsKey (CallArgs.two 5 5 (some true)) = argsKey (CallArgs.two 5 5 none) := rfl
  have h2 : cachedCallPy sampleGeometry
      (cachedCallPy sampleGeometry (fun _ => none) (CallArgs.two 5 5 none)).2.1
      (CallArgs.two 5 5 (some true)) =
      (lonlat2dymax sampleGeometry 5 5 false,
       (cachedCallPy sampleGeometry (fun _ => none) (CallArgs.two 5 5 none)).2.1,
       false) := by
    apply cachedCallPy_hit
    rw [h1, hkey]
    simp
  have h3 : (cachedCallPy sampleGeometry (fun _ => none) (CallArgs.two 5 5 none)).2.1
      (argsKey (CallArgs.three 5 5 false)) = none := by
    rw [h1]
    simp only
    rw [if_neg]
    intro he
    exact Sum.noConfusion he
  refine ⟨?_, ?_, ?_⟩
  · rw [h2]
    obtain ⟨x, y, lcd, h⟩ := lonlat2dymax_shape sampleGeometry 5 5 false
    simp only at h ⊢
    rw [h]
    rfl
  · rw [h2]
  · rw [cachedCallPy_miss sampleGeometry _ (CallArgs.three 5 5 false) h3]

/-- C3 (amended): the memo dictionary is keyed on the positional
argument tuple.  For calls passing `getlcd` positionally the claimed
behavior holds: a second identical call returns the cached result
without recomputation, calls differing only in `getlcd` use distinct
entries (and never touch the two-argument entry), and a
`getlcd = true` call returns the 3-tuple even when `(lng, lat, false)`
cached a 2-tuple.  A defaulted or keyword `getlcd` is absent from the
key (`argsKey` of any two-positional call is the bare pair), so such
calls share the two-argument entry. -/
theorem lonlat2dymax_cache_keying_positional (g : Geometry) (lng lat : ℝ)
    (b : Bool) (kw : Option Bool)
    (c : CacheKey → Option (Option DymaxResult))
    (hwf : ∀ (l t : ℝ) (b2 : Bool) (r : Option DymaxResult),
      c (Sum.inr (l, t, b2)) = some r → r = lonlat2dymax g l t b2) :
    (cachedCallPy g c (CallArgs.three lng lat b)).1 = lonlat2dymax g lng lat b
    ∧ (cachedCallPy g (cachedCallPy g c (CallArgs.three lng lat b)).2.1
        (CallArgs.three lng lat b)).1 =
        (cachedCallPy g c (CallArgs.three lng lat b)).1
    ∧ (cachedCallPy g (cachedCallPy g c (CallArgs.three lng lat b)).2.1
        (CallArgs.three lng lat b)).2.2 = false
    ∧ (∀ b2, b2 ≠ b →
        (cachedCallPy g c (CallArgs.three lng lat b)).2.1 (Sum.inr (lng, lat, b2)) =
          c (Sum.inr (lng, lat, b2)))
    ∧ (cachedCallPy g c (CallArgs.three lng lat b)).2.1 (Sum.inl (lng, lat)) =
        c (Sum.inl (lng, lat))
    ∧ (∃ x y lcd, lonlat2dymax g lng lat true = some (DymaxResult.xyl x y lcd))
    ∧ (∃ x y, lonlat2dymax g lng lat false = some (DymaxResult.xy x y))
    ∧ argsKey (CallArgs.two lng lat kw) = Sum.inl (lng, lat)
    ∧ argsKey (CallArgs.three lng lat b) = Sum.inr (lng, lat, b) := by
  have hkey : argsKey (CallArgs.three lng lat b) = Sum.inr (lng, lat, b) := rfl
  refine ⟨?_, ?_, ?_, ?_, ?_, ?_, ?_, rfl, rfl⟩
  · cases hc : c (Sum.inr (lng, lat, b)) with
    | some r =>
        rw [cachedCallPy_hit g c _ r (by rw [hkey]; exact hc)]
        exact hwf lng lat b r hc
    | none =>
        rw [cachedCallPy_miss g c _ (by rw [hkey]; exact hc)]
        rfl
  · have h := cachedCallPy_self g c (CallArgs.three lng lat b)
    rw [cachedCallPy_hit g _ _ _ h]
  · have h := cachedCallPy_self g c (CallArgs.three lng lat b)
    rw [cachedCallPy_hit g _ _ _ h]
  · intro b2 hb2
    cases hc : c (Sum.inr (lng, lat, b)) with
    | some r => rw [cachedCallPy_hit g c _ r (by rw [hkey]; exact hc)]
    | none =>
        rw [cachedCallPy_miss g c _ (by rw [hkey]; exact hc)]
        simp only
        rw [if_neg]
        intro he
        rw [hkey] at he
        have hbb := congrArg (fun k => match k with
          | Sum.inr (_, _, b3) => b3
          | Sum.inl _ => b) he
        exact hb2 hbb
  · cases hc : c (Sum.inr (lng, lat, b)) with
    | some r => rw [cachedCallPy_hit g c _ r (by rw [hkey]; exact hc)]
    | none =>
        rw [cachedCallPy_miss g c _ (by rw [hkey]; exact hc)]
        simp only
        rw [if_neg]
        intro he
        rw [hkey] at he
        exact Sum.noConfusion he
  · obtain ⟨x, y, lcd, h⟩ := lonlat2dymax_shape g lng lat true
    exact ⟨x, y, lcd, by rw [h]; rfl⟩
  · obtain ⟨x, y, lcd, h⟩ := lonlat2dymax_shape g lng lat false
    exact ⟨x, y, by rw [h]; rfl⟩

/-- Witness for C3 (amended) from the empty cache at `(0, 0, true)`
passed positionally: the call returns the 3-tuple form. -/
theorem lonlat2dymax_cache_keying_positional_spot :
    ∃ x y lcd, lonlat2dymax sampleGeometry 0 0 true =
      some (DymaxResult.xyl x y lcd) :=
  (lonlat2dymax_cache_keying_positional sampleGeometry 0 0 true none
    (fun _ => none) (fun _ _ _ _ h => Option.noConfusion h)).2.2.2.2.2.1

end

end Dymax
